import Mathlib

/-!
Verification development for the slide-deck → Jeopardy-JSON conversion
pipeline of `ppt_to_json.py`.

The Python source is shallowly embedded: each Python function of the core
pipeline (field extractors, media resolver, classifier/assembler fold,
document assembler) becomes a computable Lean definition over an explicit
data model of slides and of the deck container.  Fallible attribute access
(`try ... except`) is modelled by an explicit `Access` type whose `fault`
constructor stands for "the lookup raised"; the Python functions swallow
such faults and return defaults, and the embedding mirrors that.

String primitives: Python `str.strip`, `str.upper`, `str.lower`,
`str.replace`, `str.startswith`, `str.endswith` and substring `in` are
reimplemented below on character lists by structural recursion
(`pyStrip`, `pyUpper`, `pyLower`, `pyReplace`, `isPre`, `pyEndsWith`,
`hasSubstr`), so that every definition evaluates inside the kernel; the
deck markers and container paths involved are ASCII, where these agree
with Python's Unicode versions.  `"\n".join` is `String.intercalate`,
and `os.path.splitext` / `os.path.basename` (POSIX flavour; the only
separators present are `/` after the source's backslash replacement) are
`extOf` / `basenameOf` below.
-/

/-- Python `str.strip()`: drop whitespace from both ends. -/
def pyStrip (s : String) : String :=
  String.mk (((s.toList.dropWhile Char.isWhitespace).reverse.dropWhile
    Char.isWhitespace).reverse)

/-- Python `str.upper()` (ASCII). -/
def pyUpper (s : String) : String := String.mk (s.toList.map Char.toUpper)

/-- Python `str.lower()` (ASCII). -/
def pyLower (s : String) : String := String.mk (s.toList.map Char.toLower)

/-- Bool test that `pat` is a prefix of `l` (Python `str.startswith`). -/
def isPre : List Char → List Char → Bool
  | [], _ => true
  | _ :: _, [] => false
  | a :: pa, b :: l => decide (a = b) && isPre pa l

/-- Python `str.endswith`. -/
def pyEndsWith (s suffix : String) : Bool :=
  isPre suffix.toList.reverse s.toList.reverse

/-- Bool substring test (Python `pat in s`) on character lists. -/
def hasSubstr (pat : List Char) : List Char → Bool
  | [] => pat.isEmpty
  | a :: l => isPre pat (a :: l) || hasSubstr pat l

/-- Python `str.replace` on character lists: replace non-overlapping
occurrences of `pat` left to right.  `fuel` bounds the number of steps
(each consumes at least one character, so `l.length` suffices); it only
makes the recursion structural. -/
def pyReplaceAux (pat rep : List Char) : Nat → List Char → List Char
  | _, [] => []
  | 0, l => l
  | fuel + 1, a :: l =>
    if pat.isEmpty = false ∧ isPre pat (a :: l) then
      rep ++ pyReplaceAux pat rep fuel ((a :: l).drop pat.length)
    else a :: pyReplaceAux pat rep fuel l

/-- Python `str.replace(pat, rep)` for non-empty `pat` (the source only
replaces `"\\"` and `".."`). -/
def pyReplace (s pat rep : String) : String :=
  String.mk (pyReplaceAux pat.toList rep.toList s.toList.length s.toList)

/-- Result of a Python attribute access that the source wraps in
`try ... except`: either the looked-up value, or `fault` ("raised"). -/
inductive Access (α : Type) where
  | fault : Access α
  | ok : α → Access α
deriving DecidableEq, Repr

/-- One shape on a slide, with the attributes the source reads.
`sid` models object identity (python-pptx compares shapes by their
underlying XML element, so two shapes with equal text are still distinct
objects); `shape_type` is `getattr(shape, "shape_type", None)` (13 means
picture); `image` is `some ext` when `hasattr(shape, "image")` holds and
the image reports extension `ext` (possibly `""`, meaning unknown). -/
structure Shape where
  sid : Nat
  has_text_frame : Bool
  text : String
  shape_type : Option Nat
  image : Option String
deriving DecidableEq, Repr

/-- A slide as the field extractors see it: `titleAccess` models
`slide.shapes.title` (which may raise, be `None`, or be a shape),
`shapes` the iterable `slide.shapes`, and `notesAccess` the chain
`slide.notes_slide.notes_text_frame.text` (which may raise at any link,
all collapsed into `fault`). -/
structure Slide where
  titleAccess : Access (Option Shape)
  shapes : List Shape
  notesAccess : Access String
deriving DecidableEq, Repr

/-- `get_slide_title` from the source: the title shape's text, stripped;
`""` when the lookup raises, the slide has no title placeholder, or the
placeholder has no text frame. -/
def get_slide_title (s : Slide) : String :=
  match s.titleAccess with
  | Access.fault => ""
  | Access.ok none => ""
  | Access.ok (some sh) => if sh.has_text_frame then pyStrip sh.text else ""

/-- `get_body_text` from the source: the stripped texts of all shapes that
have a text frame and are not the title shape, joined with newlines, the
join stripped again.  The title shape is fetched once, with a raised
lookup treated as `None`. -/
def get_body_text (s : Slide) : String :=
  let title_shape : Option Shape :=
    match s.titleAccess with
    | Access.fault => none
    | Access.ok t => t
  let parts := s.shapes.filterMap (fun sh =>
    if sh.has_text_frame = false then none
    else if title_shape = some sh then none
    else
      let text := pyStrip sh.text
      if text = "" then none else some text)
  pyStrip (String.intercalate "\n" parts)

/-- `get_notes_text` from the source: the speaker-notes text, stripped;
`""` when any link of the notes lookup raises. -/
def get_notes_text (s : Slide) : String :=
  match s.notesAccess with
  | Access.fault => ""
  | Access.ok t => pyStrip t

/-- Left-pad the decimal digits of `n` with zeros to width `w`
(Python `f"{n:0wd}"` for natural `n`). -/
def padNum (w n : Nat) : String :=
  let s := toString n
  String.mk (List.replicate (w - s.length) '0') ++ s

/-- `extract_images_from_slide`'s loop: walk the shapes, and for each
picture shape (`shape_type == 13` and `hasattr(shape, "image")`) emit the
deterministic filename built from the slide ordinal, the running picture
counter `img_num`, and the image extension (`"png"` when empty). -/
def extractImagesAux (slide_idx : Nat) : List Shape → Nat → List String
  | [], _ => []
  | sh :: rest, img_num =>
    if sh.shape_type = some 13 ∧ sh.image.isSome then
      let e := sh.image.getD ""
      let ext := pyLower (if e = "" then "png" else e)
      ("slide" ++ padNum 3 slide_idx ++ "_img" ++ padNum 2 (img_num + 1) ++ "." ++ ext)
        :: extractImagesAux slide_idx rest (img_num + 1)
    else extractImagesAux slide_idx rest img_num

/-- `extract_images_from_slide` from the source (the file writes
themselves are excluded glue; the returned filename list is the value the
pipeline consumes). -/
def extract_images_from_slide (shapes : List Shape) (slide_idx : Nat) : List String :=
  extractImagesAux slide_idx shapes 0

/-- Extension part of `os.path.splitext` (POSIX): the suffix of the last
path component from its last dot on, unless that component has no dot or
consists of leading dots only. -/
def extOf (p : String) : String :=
  let brev := p.toList.reverse.takeWhile (fun ch => ch ≠ '/')
  let erev := brev.takeWhile (fun ch => ch ≠ '.')
  if erev.length = brev.length then ""
  else if (brev.drop (erev.length + 1)).any (fun ch => ch ≠ '.') then
    String.mk ('.' :: erev.reverse)
  else ""

/-- `os.path.basename` (POSIX): the part after the last slash. -/
def basenameOf (p : String) : String :=
  String.mk (p.toList.reverse.takeWhile (fun ch => ch ≠ '/')).reverse

/-- `AUDIO_EXTS` from the source. -/
def AUDIO_EXTS : List String := [".mp3", ".m4a", ".wav", ".aac", ".ogg"]

/-- One parsed `<Relationship .../>` entry of a slide's relationship
manifest: the XML tag and the `Target` attribute
(`rel.attrib.get("Target", "") or ""`, so absent collapses to `""`).
The generic XML parsing itself is excluded glue. -/
structure RelEntry where
  tag : String
  target : String
deriving DecidableEq, Repr

/-- The deck's zip container at its boundary: `namelist` is
`ZipFile.namelist()`, and `manifest p` is the parsed relationship list of
the XML part at path `p` (consulted only for paths in `namelist`). -/
structure Container where
  namelist : List String
  manifest : String → List RelEntry

/-- `_rels_path_for_slide` from the source. -/
def rels_path_for_slide (slide_idx : Nat) : String :=
  "ppt/slides/_rels/slide" ++ toString slide_idx ++ ".xml.rels"

/-- The normalization applied to a relationship `Target` inside
`_slide_audio_targets`: backslashes to slashes, every `".."` occurrence
deleted, leading slashes stripped, and the result rooted under `"ppt/"`
when not already so rooted. -/
def normalizeTarget (target : String) : String :=
  let n := pyReplace target "\\" "/"
  let n := pyReplace n ".." ""
  let n := String.mk (n.toList.dropWhile (fun ch => ch = '/'))
  if isPre "ppt/".toList n.toList then n else "ppt/" ++ n

/-- The body of `_slide_audio_targets`'s loop for one relationship entry:
`none` when the entry is filtered out (tag not a relationship, no
`"media/"` in the target, or extension not in `AUDIO_EXTS`), otherwise
the normalized internal container path. -/
def relAudioTarget (rel : RelEntry) : Option String :=
  if pyEndsWith (pyLower rel.tag) "relationship" = false then none
  else if hasSubstr "media/".toList rel.target.toList = false then none
  else
    let norm := normalizeTarget rel.target
    if extOf (pyLower norm) ∈ AUDIO_EXTS then some norm else none

/-- `_slide_audio_targets` from the source: empty when the slide's
relationship manifest is not in the container, otherwise the normalized
audio targets collected from the manifest's entries. -/
def slide_audio_targets (c : Container) (slide_idx : Nat) : List String :=
  let rels_path := rels_path_for_slide slide_idx
  if rels_path ∈ c.namelist then (c.manifest rels_path).filterMap relAudioTarget
  else []

/-- `extract_audio_from_slide` from the source: each resolved target that
actually exists in the container yields the saved filename
`slide{NNN}_{basename}` (the byte copy itself is excluded glue). -/
def extract_audio_from_slide (c : Container) (slide_idx : Nat) : List String :=
  let targets := slide_audio_targets c slide_idx
  if targets.isEmpty then []
  else targets.filterMap (fun t =>
    if t ∈ c.namelist then
      some ("slide" ++ padNum 3 slide_idx ++ "_" ++ basenameOf t)
    else none)

/-- A `{src: ...}` media reference of the output document. -/
structure MediaRef where
  src : String
deriving DecidableEq, Repr

/-- A clue record of the output: `images`/`audio` are `none` exactly when
the source leaves the corresponding JSON key off the dict. -/
structure Clue where
  question : String
  answer : String
  images : Option (List MediaRef)
  audio : Option (List MediaRef)
deriving DecidableEq, Repr

/-- The final-round record of the output. -/
structure FinalClue where
  category : String
  question : String
  answer : String
  images : Option (List MediaRef)
  audio : Option (List MediaRef)
deriving DecidableEq, Repr

/-- The recognized command-line options of the pipeline (paths excluded
as glue; the marker titles and the assets root shape the output). -/
structure Config where
  round1_title : String
  round2_title : String
  final_title : String
  assets : String

/-- `args.round1_title.strip().upper()` from the source. -/
def r1_key (cfg : Config) : String := pyUpper (pyStrip cfg.round1_title)

/-- `args.round2_title.strip().upper()` from the source. -/
def r2_key (cfg : Config) : String := pyUpper (pyStrip cfg.round2_title)

/-- `args.final_title.strip().upper()` from the source. -/
def f_key (cfg : Config) : String := pyUpper (pyStrip cfg.final_title)

/-- `get_slide_title(slide).strip()` as computed at the top of the loop. -/
def slideTitleTrim (s : Slide) : String := pyStrip (get_slide_title s)

/-- `title.upper()` as computed at the top of the loop. -/
def slideUpper (s : Slide) : String := pyUpper (slideTitleTrim s)

/-- The two accumulating rounds; the source keys them by the strings
`"round1"`/`"round2"`, whose only other possible value of
`current_round` is `None`, so `Option RoundKey` models it exactly. -/
inductive RoundKey where
  | round1 : RoundKey
  | round2 : RoundKey
deriving DecidableEq, Repr

/-- The other round. -/
def RoundKey.other : RoundKey → RoundKey
  | RoundKey.round1 => RoundKey.round2
  | RoundKey.round2 => RoundKey.round1

/-- An accumulating round: an insertion-ordered map from category name to
the category's clue list (Python `OrderedDict`), as an association list
with unique keys. -/
abbrev RoundMap : Type := List (String × List Clue)

/-- `if category not in rounds[r]: rounds[r][category] = []` followed by
`rounds[r][category].append(clue)`: append the clue to the category's
list, creating the category at the end on first sight.  (The map update
rewrites every entry with the key; keys are unique in every reachable
state, so this is the `OrderedDict` update.) -/
def addClue (m : RoundMap) (cat : String) (cl : Clue) : RoundMap :=
  if cat ∈ m.map Prod.fst then
    m.map (fun p => if p.1 = cat then (p.1, p.2 ++ [cl]) else p)
  else m ++ [(cat, [cl])]

/-- The accumulator of the per-slide fold in `main`. -/
structure FoldState where
  current_round : Option RoundKey
  round1 : RoundMap
  round2 : RoundMap
  final : Option FinalClue
deriving DecidableEq

/-- The round map selected by a key. -/
def roundGet (st : FoldState) : RoundKey → RoundMap
  | RoundKey.round1 => st.round1
  | RoundKey.round2 => st.round2

/-- `rounds[current_round][category].append(clue)` on the state. -/
def stepRound (st : FoldState) (r : RoundKey) (cat : String) (cl : Clue) : FoldState :=
  match r with
  | RoundKey.round1 => { st with round1 := addClue st.round1 cat cl }
  | RoundKey.round2 => { st with round2 := addClue st.round2 cat cl }

/-- The clue dict built for a content slide: question from the body,
answer from the notes, `images`/`audio` keys attached only when the
extracted lists are non-empty. -/
def buildClue (cfg : Config) (c : Container) (idx : Nat) (s : Slide) : Clue :=
  let imgs := extract_images_from_slide s.shapes idx
  let auds := extract_audio_from_slide c idx
  { question := get_body_text s
    answer := get_notes_text s
    images := if imgs.isEmpty then none
      else some (imgs.map (fun n => { src := cfg.assets ++ "/images/" ++ n }))
    audio := if auds.isEmpty then none
      else some (auds.map (fun n => { src := cfg.assets ++ "/audio/" ++ n })) }

/-- The final dict built for a final-marker slide: the category is the
configured `--final_title` verbatim, not the slide's title. -/
def buildFinal (cfg : Config) (c : Container) (idx : Nat) (s : Slide) : FinalClue :=
  let imgs := extract_images_from_slide s.shapes idx
  let auds := extract_audio_from_slide c idx
  { category := cfg.final_title
    question := get_body_text s
    answer := get_notes_text s
    images := if imgs.isEmpty then none
      else some (imgs.map (fun n => { src := cfg.assets ++ "/images/" ++ n }))
    audio := if auds.isEmpty then none
      else some (auds.map (fun n => { src := cfg.assets ++ "/audio/" ++ n })) }

/-- One iteration of the `for idx, slide in enumerate(prs.slides, 1)`
loop in `main`: classify by the trimmed, uppercased title against the
three marker keys, else skip outside a section, else drop on any empty
field, else append the clue to the current round. -/
def step (cfg : Config) (c : Container) (st : FoldState) (p : Nat × Slide) : FoldState :=
  let title := slideTitleTrim p.2
  if pyUpper title = r1_key cfg then { st with current_round := some RoundKey.round1 }
  else if pyUpper title = r2_key cfg then { st with current_round := some RoundKey.round2 }
  else if pyUpper title = f_key cfg then
    { st with final := some (buildFinal cfg c p.1 p.2), current_round := none }
  else
    match st.current_round with
    | none => st
    | some r =>
      if title = "" ∨ get_body_text p.2 = "" ∨ get_notes_text p.2 = "" then st
      else stepRound st r title (buildClue cfg c p.1 p.2)

/-- The initial accumulator: no section, empty rounds, no final. -/
def initState : FoldState :=
  { current_round := none, round1 := [], round2 := [], final := none }

/-- Fold the loop body over an already-enumerated slide list. -/
def runFrom (cfg : Config) (c : Container) (st : FoldState)
    (l : List (Nat × Slide)) : FoldState :=
  l.foldl (step cfg c) st

/-- The whole slide loop of `main`, slides enumerated from 1. -/
def runDeck (cfg : Config) (c : Container) (slides : List Slide) : FoldState :=
  runFrom cfg c initState (List.enumFrom 1 slides)

/-- A category of the output document. -/
structure CategoryOut where
  name : String
  clues : List Clue
deriving DecidableEq, Repr

/-- A round of the output document. -/
structure RoundOut where
  name : String
  categories : List CategoryOut
deriving DecidableEq, Repr

/-- The output document (`data` in `main`); `final = none` is the JSON
`null`. -/
structure Document where
  title : String
  rounds : List RoundOut
  final : Option FinalClue
deriving DecidableEq, Repr

/-- The document assembly at the bottom of `main`. -/
def buildDocument (st : FoldState) : Document :=
  { title := "Jeopardy Content"
    rounds :=
      [ { name := "Round 1"
          categories := st.round1.map (fun p => { name := p.1, clues := p.2 }) }
      , { name := "Round 2"
          categories := st.round2.map (fun p => { name := p.1, clues := p.2 }) } ]
    final := st.final }

/-- The pipeline from deck to output document. -/
def ppt_to_json (cfg : Config) (c : Container) (slides : List Slide) : Document :=
  buildDocument (runDeck cfg c slides)

/-- The default marker titles and assets root of the argument parser. -/
def defaultConfig : Config :=
  { round1_title := "ROUND 1", round2_title := "ROUND 2"
    final_title := "FINAL JEOPARDY", assets := "assets" }

/-- A container with no parts at all (a deck with no media). -/
def emptyContainer : Container := { namelist := [], manifest := fun _ => [] }


/-- The title placeholder shape of the synthetic deck's slide `i`. -/
def titleShape (i : Nat) (t : String) : Shape :=
  { sid := 10 * i, has_text_frame := true, text := t
    shape_type := some 1, image := none }

/-- A body text box of the synthetic deck's slide `i`. -/
def bodyShape (i : Nat) (t : String) : Shape :=
  { sid := 10 * i + 1, has_text_frame := true, text := t
    shape_type := some 17, image := none }

/-- A slide of the synthetic deck: a title placeholder, an optional body
text box, and notes text. -/
def mkSlide (i : Nat) (title body notes : String) : Slide :=
  { titleAccess := Access.ok (some (titleShape i title))
    shapes := if body = "" then [titleShape i title]
      else [titleShape i title, bodyShape i body]
    notesAccess := Access.ok notes }

/-- The synthetic four-slide deck of the round-trip scenario. -/
def syntheticDeck : List Slide :=
  [ mkSlide 1 "ROUND 1" "" ""
  , mkSlide 2 "Science" "Water's chemical formula?" "H2O"
  , mkSlide 3 "ROUND 2" "" ""
  , mkSlide 4 "FINAL JEOPARDY" "Capital of France" "Paris" ]

/-- A slide on which every field lookup raises. -/
def faultSlide : Slide :=
  { titleAccess := Access.fault, shapes := [], notesAccess := Access.fault }

/-- Insertion-order lookup in a round map: the clue list of the first
entry carrying the key. -/
def odFind (m : RoundMap) (k : String) : Option (List Clue) :=
  match m with
  | [] => none
  | p :: rest => if p.1 = k then some p.2 else odFind rest k

/-- First-occurrence deduplication, accumulator form: append each element
not yet seen, keep the order of first occurrences. -/
def firstOccurAux (acc : List String) : List String → List String
  | [] => acc
  | x :: l => firstOccurAux (if x ∈ acc then acc else acc ++ [x]) l

/-- The distinct elements of `l` in order of first occurrence. -/
def firstOccur (l : List String) : List String := firstOccurAux [] l

/-- Modelled from the spec's ordering invariant, independently of
`addClue`: group a stream of `(category, clue)` emissions into an
association list whose keys are the categories in first-encounter order
and whose values are each category's clues in stream order. -/
def groupFirst (p : List (String × Clue)) : RoundMap :=
  (firstOccur (p.map Prod.fst)).map
    (fun k => (k, (p.filter (fun q => decide (q.1 = k))).map Prod.snd))

/-- The emissions belonging to round `r`. -/
def producedFor (r : RoundKey) (l : List (RoundKey × String × Clue)) :
    List (String × Clue) :=
  l.filterMap (fun e => if e.1 = r then some e.2 else none)

/-- Emission-only replay of the slide loop: the stream of
`(round, category, clue)` triples the loop appends, in slide order,
tracking only the current section.  The case analysis mirrors `step`. -/
def produced (cfg : Config) (c : Container) :
    Option RoundKey → List (Nat × Slide) → List (RoundKey × String × Clue)
  | _, [] => []
  | cur, p :: l =>
    let title := slideTitleTrim p.2
    if pyUpper title = r1_key cfg then produced cfg c (some RoundKey.round1) l
    else if pyUpper title = r2_key cfg then produced cfg c (some RoundKey.round2) l
    else if pyUpper title = f_key cfg then produced cfg c none l
    else
      match cur with
      | none => produced cfg c none l
      | some r =>
        if title = "" ∨ get_body_text p.2 = "" ∨ get_notes_text p.2 = "" then
          produced cfg c (some r) l
        else (r, title, buildClue cfg c p.1 p.2) :: produced cfg c (some r) l

/-- A slide the loop classifies as the final marker: its uppercased title
misses both round keys and hits the final key (the loop tests in that
order). -/
def isFinalMarker (cfg : Config) (s : Slide) : Bool :=
  decide (slideUpper s ≠ r1_key cfg) && decide (slideUpper s ≠ r2_key cfg) &&
    decide (slideUpper s = f_key cfg)

/-- The record a last-write-wins fold leaves: the one built from the last
hit when there is one, the initial value otherwise. -/
def lastWriteOut {α β : Type} (bld : α → β) (o : Option α)
    (init : Option β) : Option β :=
  match o with
  | some p => some (bld p)
  | none => init

/-- C1: running the pipeline on the synthetic deck [ROUND 1], [Science /
question / answer], [ROUND 2], [FINAL JEOPARDY / question / answer] with
no media yields: round 1 with the single category "Science" holding the
single clue (no image or audio keys), round 2 with no categories, and the
final record with the marker category and the final slide's body and
notes. -/
theorem roundtrip_synthetic_deck :
    ppt_to_json defaultConfig emptyContainer syntheticDeck =
      { title := "Jeopardy Content"
        rounds :=
          [ { name := "Round 1"
              categories :=
                [ { name := "Science"
                    clues := [{ question := "Water's chemical formula?"
                                answer := "H2O", images := none, audio := none }] } ] }
          , { name := "Round 2", categories := [] } ]
        final := some { category := "FINAL JEOPARDY"
                        question := "Capital of France", answer := "Paris"
                        images := none, audio := none } } := by
  decide

lemma pyStrip_empty : pyStrip "" = "" := by decide

lemma pyUpper_empty : pyUpper "" = "" := by decide

/-- C7: the three field extractors are total pure functions (they are
plain Lean functions of the slide value, so totality, purity and
non-mutation hold by construction), and every absence or fault — a
raised or `None` title lookup, a title placeholder without a text frame,
a slide with no text-bearing non-title region, a raised notes lookup —
yields the empty string. -/
theorem field_extractors_total (s : Slide) :
    ((s.titleAccess = Access.fault ∨ s.titleAccess = Access.ok none) →
      get_slide_title s = "")
    ∧ (∀ sh : Shape, s.titleAccess = Access.ok (some sh) →
      sh.has_text_frame = false → get_slide_title s = "")
    ∧ ((∀ sh ∈ s.shapes, sh.has_text_frame = false) → get_body_text s = "")
    ∧ (s.notesAccess = Access.fault → get_notes_text s = "") := by
  refine ⟨?_, ?_, ?_, ?_⟩
  · rintro (h | h) <;> simp [get_slide_title, h]
  · intro sh h hf
    simp [get_slide_title, h, hf]
  · intro h
    have hnil : s.shapes.filterMap (fun sh =>
        if sh.has_text_frame = false then none
        else if (match s.titleAccess with
          | Access.fault => none
          | Access.ok t => t) = some sh then none
        else
          let text := pyStrip sh.text
          if text = "" then none else some text) = [] := by
      rw [List.filterMap_eq_nil_iff]
      intro sh hsh
      simp [h sh hsh]
    simp [get_body_text, hnil]
    decide
  · intro h
    simp [get_notes_text, h]

/-- C7 witness at a fully faulting slide. -/
theorem field_extractors_total_witness :
    get_slide_title faultSlide = "" ∧ get_notes_text faultSlide = "" :=
  ⟨(field_extractors_total faultSlide).1 (Or.inl rfl),
   (field_extractors_total faultSlide).2.2.2 rfl⟩

/-- C8: a slide seen while no section is current, whose uppercased title
matches none of the three marker keys, leaves the whole accumulator
unchanged. -/
theorem pre_section_skip (cfg : Config) (c : Container) (st : FoldState)
    (idx : Nat) (slide : Slide)
    (hcur : st.current_round = none)
    (h1 : slideUpper slide ≠ r1_key cfg)
    (h2 : slideUpper slide ≠ r2_key cfg)
    (h3 : slideUpper slide ≠ f_key cfg) :
    step cfg c st (idx, slide) = st := by
  unfold step
  simp only [slideUpper] at h1 h2 h3
  simp [h1, h2, h3, hcur]

/-- C8 witness: a well-formed content-shaped slide before any marker is
skipped. -/
theorem pre_section_skip_witness :
    step defaultConfig emptyContainer initState
      (1, mkSlide 2 "Science" "Water's chemical formula?" "H2O") = initState :=
  pre_section_skip _ _ _ _ _ rfl (by decide) (by decide) (by decide)

/-- C9: when a configured marker title strips to the empty string, every
slide whose extracted title is empty (no title region, faulting lookup,
or blank text all give `""`) matches that marker — the markers are tested
in round-1, round-2, final order, so each conjunct assumes the earlier
keys are non-empty — and the slide is classified as that marker slide
instead of being skipped or treated as content. -/
theorem empty_marker_title_classification (cfg : Config) (c : Container)
    (st : FoldState) (idx : Nat) (slide : Slide)
    (htitle : get_slide_title slide = "") :
    (pyStrip cfg.round1_title = "" →
      step cfg c st (idx, slide) = { st with current_round := some RoundKey.round1 })
    ∧ (r1_key cfg ≠ "" → pyStrip cfg.round2_title = "" →
      step cfg c st (idx, slide) = { st with current_round := some RoundKey.round2 })
    ∧ (r1_key cfg ≠ "" → r2_key cfg ≠ "" → pyStrip cfg.final_title = "" →
      step cfg c st (idx, slide) =
        { st with final := some (buildFinal cfg c idx slide), current_round := none }) := by
  have hupper : pyUpper (slideTitleTrim slide) = "" := by
    rw [slideTitleTrim, htitle, pyStrip_empty, pyUpper_empty]
  refine ⟨?_, ?_, ?_⟩
  · intro h1
    have hk : r1_key cfg = "" := by rw [r1_key, h1, pyUpper_empty]
    unfold step
    simp [hupper, hk]
  · intro h1 h2
    have hk : r2_key cfg = "" := by rw [r2_key, h2, pyUpper_empty]
    have hne : ("" : String) ≠ r1_key cfg := fun e => h1 e.symm
    unfold step
    simp [hupper, hne, hk]
  · intro h1 h2 h3
    have hk : f_key cfg = "" := by rw [f_key, h3, pyUpper_empty]
    have hne1 : ("" : String) ≠ r1_key cfg := fun e => h1 e.symm
    have hne2 : ("" : String) ≠ r2_key cfg := fun e => h2 e.symm
    unfold step
    simp [hupper, hne1, hne2, hk]

/-- A configuration whose round-1 marker is configured empty. -/
def emptyR1Config : Config :=
  { round1_title := "", round2_title := "ROUND 2"
    final_title := "FINAL JEOPARDY", assets := "assets" }

/-- C9 witness: with the round-1 marker configured `""`, a slide whose
title lookup faults is classified as a round-1 marker slide. -/
theorem empty_marker_title_classification_witness :
    step emptyR1Config emptyContainer initState (1, faultSlide) =
      { initState with current_round := some RoundKey.round1 } :=
  (empty_marker_title_classification emptyR1Config emptyContainer initState
    1 faultSlide rfl).1 (by decide)

lemma odFind_map_update_self (m : RoundMap) (cat : String) (cl : Clue) :
    odFind (m.map (fun p => if p.1 = cat then (p.1, p.2 ++ [cl]) else p)) cat
      = (odFind m cat).map (fun l => l ++ [cl]) := by
  induction m with
  | nil => rfl
  | cons p rest ih =>
    by_cases h : p.1 = cat
    · simp [odFind, h]
    · simp [odFind, h, ih]

lemma odFind_map_update_other (m : RoundMap) (cat k : String) (cl : Clue)
    (hk : k ≠ cat) :
    odFind (m.map (fun p => if p.1 = cat then (p.1, p.2 ++ [cl]) else p)) k
      = odFind m k := by
  induction m with
  | nil => rfl
  | cons p rest ih =>
    have hck : ¬ cat = k := fun e => hk e.symm
    by_cases h : p.1 = cat
    · simp [odFind, h, hck, ih]
    · by_cases h2 : p.1 = k
      · simp [odFind, h, h2, hk, ih]
      · simp [odFind, h, h2, ih]

lemma odFind_none_of_not_mem (m : RoundMap) (cat : String)
    (h : cat ∉ m.map Prod.fst) : odFind m cat = none := by
  induction m with
  | nil => rfl
  | cons p rest ih =>
    simp only [List.map_cons, List.mem_cons, not_or] at h
    have hp : ¬ p.1 = cat := fun e => h.1 e.symm
    simp [odFind, hp, ih h.2]

lemma odFind_isSome_of_mem (m : RoundMap) (cat : String)
    (h : cat ∈ m.map Prod.fst) : ∃ l, odFind m cat = some l := by
  induction m with
  | nil => simp at h
  | cons p rest ih =>
    by_cases hp : p.1 = cat
    · exact ⟨p.2, by simp [odFind, hp]⟩
    · simp only [List.map_cons, List.mem_cons] at h
      rcases h with h | h
      · exact absurd h.symm hp
      · obtain ⟨l, hl⟩ := ih h
        exact ⟨l, by simp [odFind, hp, hl]⟩

lemma odFind_append_single_self (m : RoundMap) (cat : String) (cl : Clue)
    (h : cat ∉ m.map Prod.fst) :
    odFind (m ++ [(cat, [cl])]) cat = some [cl] := by
  induction m with
  | nil => simp [odFind]
  | cons p rest ih =>
    simp only [List.map_cons, List.mem_cons, not_or] at h
    have hp : ¬ p.1 = cat := fun e => h.1 e.symm
    simp only [List.cons_append, odFind, hp, if_false]
    exact ih h.2

lemma odFind_append_single_other (m : RoundMap) (cat k : String) (cl : Clue)
    (hk : k ≠ cat) :
    odFind (m ++ [(cat, [cl])]) k = odFind m k := by
  induction m with
  | nil =>
    have hck : ¬ cat = k := fun e => hk e.symm
    simp [odFind, hck]
  | cons p rest ih =>
    by_cases hp : p.1 = k
    · simp [odFind, hp]
    · simp [odFind, hp, ih]

lemma odFind_addClue_self (m : RoundMap) (cat : String) (cl : Clue) :
    odFind (addClue m cat cl) cat
      = some ((odFind m cat).getD [] ++ [cl]) := by
  unfold addClue
  by_cases h : cat ∈ m.map Prod.fst
  · obtain ⟨l, hl⟩ := odFind_isSome_of_mem m cat h
    rw [if_pos h, odFind_map_update_self, hl]
    rfl
  · rw [if_neg h, odFind_append_single_self m cat cl h,
      odFind_none_of_not_mem m cat h]
    rfl

lemma odFind_addClue_other (m : RoundMap) (cat k : String) (cl : Clue)
    (hk : k ≠ cat) :
    odFind (addClue m cat cl) k = odFind m k := by
  unfold addClue
  by_cases h : cat ∈ m.map Prod.fst
  · rw [if_pos h, odFind_map_update_other m cat k cl hk]
  · rw [if_neg h, odFind_append_single_other m cat k cl hk]

lemma stepRound_roundGet_self (st : FoldState) (r : RoundKey) (cat : String)
    (cl : Clue) :
    roundGet (stepRound st r cat cl) r = addClue (roundGet st r) cat cl := by
  cases r <;> rfl

lemma stepRound_roundGet_other (st : FoldState) (r : RoundKey) (cat : String)
    (cl : Clue) :
    roundGet (stepRound st r cat cl) r.other = roundGet st r.other := by
  cases r <;> rfl

lemma stepRound_final (st : FoldState) (r : RoundKey) (cat : String)
    (cl : Clue) : (stepRound st r cat cl).final = st.final := by
  cases r <;> rfl

lemma stepRound_current (st : FoldState) (r : RoundKey) (cat : String)
    (cl : Clue) : (stepRound st r cat cl).current_round = st.current_round := by
  cases r <;> rfl

/-- The fold step on a content slide inside a section, written out:
drop when any field is empty, else append via `addClue`. -/
lemma step_content (cfg : Config) (c : Container) (st : FoldState)
    (idx : Nat) (slide : Slide) (r : RoundKey)
    (hcur : st.current_round = some r)
    (h1 : slideUpper slide ≠ r1_key cfg)
    (h2 : slideUpper slide ≠ r2_key cfg)
    (h3 : slideUpper slide ≠ f_key cfg) :
    step cfg c st (idx, slide) =
      if slideTitleTrim slide = "" ∨ get_body_text slide = "" ∨
          get_notes_text slide = "" then st
      else stepRound st r (slideTitleTrim slide) (buildClue cfg c idx slide) := by
  unfold step
  simp only [slideUpper] at h1 h2 h3
  simp [h1, h2, h3, hcur]

/-- C2: for a slide processed inside round 1 or round 2 whose title
matches no marker key: if the trimmed title (category), the body
(question) or the notes (answer) is empty the step is the identity on the
accumulator; if all three are non-empty, exactly one clue — carrying that
body and notes — is appended at the end of the title's category list in
the current round, every other category, the other round, the final
record and the current section being untouched. -/
theorem content_slide_drop_or_append (cfg : Config) (c : Container)
    (st : FoldState) (idx : Nat) (slide : Slide) (r : RoundKey)
    (hcur : st.current_round = some r)
    (h1 : slideUpper slide ≠ r1_key cfg)
    (h2 : slideUpper slide ≠ r2_key cfg)
    (h3 : slideUpper slide ≠ f_key cfg) :
    ((slideTitleTrim slide = "" ∨ get_body_text slide = "" ∨
        get_notes_text slide = "") → step cfg c st (idx, slide) = st)
    ∧ (slideTitleTrim slide ≠ "" → get_body_text slide ≠ "" →
        get_notes_text slide ≠ "" →
        ∃ cl : Clue,
          cl.question = get_body_text slide ∧
          cl.answer = get_notes_text slide ∧
          odFind (roundGet (step cfg c st (idx, slide)) r) (slideTitleTrim slide)
            = some ((odFind (roundGet st r) (slideTitleTrim slide)).getD []
                ++ [cl]) ∧
          (∀ k, k ≠ slideTitleTrim slide →
            odFind (roundGet (step cfg c st (idx, slide)) r) k
              = odFind (roundGet st r) k) ∧
          roundGet (step cfg c st (idx, slide)) r.other = roundGet st r.other ∧
          (step cfg c st (idx, slide)).final = st.final ∧
          (step cfg c st (idx, slide)).current_round = st.current_round) := by
  have hs := step_content cfg c st idx slide r hcur h1 h2 h3
  constructor
  · intro hempty
    rw [hs, if_pos hempty]
  · intro ht hb hn
    have hcond : ¬ (slideTitleTrim slide = "" ∨ get_body_text slide = "" ∨
        get_notes_text slide = "") := by
      rintro (h | h | h) <;> [exact ht h; exact hb h; exact hn h]
    rw [hs, if_neg hcond]
    refine ⟨buildClue cfg c idx slide, rfl, rfl, ?_, ?_, ?_, ?_, ?_⟩
    · rw [stepRound_roundGet_self, odFind_addClue_self]
    · intro k hk
      rw [stepRound_roundGet_self, odFind_addClue_other _ _ _ _ hk]
    · exact stepRound_roundGet_other st r _ _
    · exact stepRound_final st r _ _
    · rw [stepRound_current, hcur]

/-- C2 witness: the Science slide appends its clue to a fresh category in
round 1 of the initial in-round state. -/
theorem content_slide_drop_or_append_witness :
    ∃ cl : Clue,
      cl.question = get_body_text (mkSlide 2 "Science" "Water's chemical formula?" "H2O") ∧
      cl.answer = get_notes_text (mkSlide 2 "Science" "Water's chemical formula?" "H2O") ∧
      odFind (roundGet (step defaultConfig emptyContainer
          { initState with current_round := some RoundKey.round1 }
          (2, mkSlide 2 "Science" "Water's chemical formula?" "H2O")) RoundKey.round1)
        (slideTitleTrim (mkSlide 2 "Science" "Water's chemical formula?" "H2O"))
        = some ((odFind (roundGet { initState with current_round := some RoundKey.round1 }
            RoundKey.round1)
            (slideTitleTrim (mkSlide 2 "Science" "Water's chemical formula?" "H2O"))).getD []
          ++ [cl]) ∧
      (∀ k, k ≠ slideTitleTrim (mkSlide 2 "Science" "Water's chemical formula?" "H2O") →
        odFind (roundGet (step defaultConfig emptyContainer
            { initState with current_round := some RoundKey.round1 }
            (2, mkSlide 2 "Science" "Water's chemical formula?" "H2O")) RoundKey.round1) k
          = odFind (roundGet { initState with current_round := some RoundKey.round1 }
            RoundKey.round1) k) ∧
      roundGet (step defaultConfig emptyContainer
          { initState with current_round := some RoundKey.round1 }
          (2, mkSlide 2 "Science" "Water's chemical formula?" "H2O")) RoundKey.round1.other
        = roundGet { initState with current_round := some RoundKey.round1 }
          RoundKey.round1.other ∧
      (step defaultConfig emptyContainer
          { initState with current_round := some RoundKey.round1 }
          (2, mkSlide 2 "Science" "Water's chemical formula?" "H2O")).final
        = ({ initState with current_round := some RoundKey.round1 } : FoldState).final ∧
      (step defaultConfig emptyContainer
          { initState with current_round := some RoundKey.round1 }
          (2, mkSlide 2 "Science" "Water's chemical formula?" "H2O")).current_round
        = ({ initState with current_round := some RoundKey.round1 } : FoldState).current_round :=
  (content_slide_drop_or_append defaultConfig emptyContainer
    { initState with current_round := some RoundKey.round1 }
    2 (mkSlide 2 "Science" "Water's chemical formula?" "H2O") RoundKey.round1
    rfl (by decide) (by decide) (by decide)).2
    (by decide) (by decide) (by decide)

lemma mem_firstOccurAux (y : String) (l acc : List String) :
    y ∈ firstOccurAux acc l ↔ y ∈ acc ∨ y ∈ l := by
  induction l generalizing acc with
  | nil => simp [firstOccurAux]
  | cons x rest ih =>
    rw [firstOccurAux, ih]
    by_cases hx : x ∈ acc
    · rw [if_pos hx]
      constructor
      · rintro (h | h)
        · exact Or.inl h
        · exact Or.inr (List.mem_cons_of_mem x h)
      · rintro (h | h)
        · exact Or.inl h
        · rcases List.mem_cons.1 h with h | h
          · exact Or.inl (h ▸ hx)
          · exact Or.inr h
    · rw [if_neg hx]
      simp [List.mem_append, List.mem_cons, or_assoc, or_comm, or_left_comm]

lemma mem_firstOccur (y : String) (l : List String) :
    y ∈ firstOccur l ↔ y ∈ l := by
  rw [firstOccur, mem_firstOccurAux]
  simp

lemma firstOccurAux_append_single (c : String) (l acc : List String) :
    firstOccurAux acc (l ++ [c])
      = (if c ∈ firstOccurAux acc l then firstOccurAux acc l
          else firstOccurAux acc l ++ [c]) := by
  induction l generalizing acc with
  | nil => rfl
  | cons x rest ih => rw [List.cons_append, firstOccurAux, ih, firstOccurAux]

lemma firstOccur_append_single (c : String) (l : List String) :
    firstOccur (l ++ [c])
      = (if c ∈ l then firstOccur l else firstOccur l ++ [c]) := by
  simp only [firstOccur, firstOccurAux_append_single]
  refine if_congr ?_ rfl rfl
  rw [mem_firstOccurAux]
  simp

lemma firstOccurAux_nodup (l acc : List String) (h : acc.Nodup) :
    (firstOccurAux acc l).Nodup := by
  induction l generalizing acc with
  | nil => exact h
  | cons x rest ih =>
    rw [firstOccurAux]
    by_cases hx : x ∈ acc
    · rw [if_pos hx]; exact ih acc h
    · rw [if_neg hx]
      refine ih _ ?_
      rw [List.nodup_append]
      exact ⟨h, List.nodup_singleton x, by simpa using hx⟩

lemma firstOccur_nodup (l : List String) : (firstOccur l).Nodup :=
  firstOccurAux_nodup l [] List.nodup_nil

lemma groupFirst_keys (p : List (String × Clue)) :
    (groupFirst p).map Prod.fst = firstOccur (p.map Prod.fst) := by
  rw [groupFirst, List.map_map]
  exact List.map_id _

lemma addClue_groupFirst (p : List (String × Clue)) (c : String) (v : Clue) :
    addClue (groupFirst p) c v = groupFirst (p ++ [(c, v)]) := by
  by_cases hc : c ∈ p.map Prod.fst
  · have hmem : c ∈ (groupFirst p).map Prod.fst := by
      rw [groupFirst_keys, mem_firstOccur]; exact hc
    rw [addClue, if_pos hmem, groupFirst, groupFirst, List.map_append,
      List.map_map]
    have hfo : firstOccur (p.map Prod.fst ++ [(c, v)].map Prod.fst)
        = firstOccur (p.map Prod.fst) := by
      simp only [List.map_cons, List.map_nil]
      rw [firstOccur_append_single, if_pos hc]
    rw [hfo]
    refine List.map_congr_left ?_
    intro k _
    simp only [Function.comp]
    rw [List.filter_append]
    by_cases hk : k = c
    · subst hk
      simp
    · have hck : ¬ (c = k) := fun e => hk e.symm
      simp [hk, hck]
  · have hmem : c ∉ (groupFirst p).map Prod.fst := by
      rw [groupFirst_keys, mem_firstOccur]; exact hc
    rw [addClue, if_neg hmem, groupFirst, groupFirst, List.map_append]
    have hfo : firstOccur (p.map Prod.fst ++ [(c, v)].map Prod.fst)
        = firstOccur (p.map Prod.fst) ++ [c] := by
      simp only [List.map_cons, List.map_nil]
      rw [firstOccur_append_single, if_neg hc]
    rw [hfo, List.map_append]
    congr 1
    · refine List.map_congr_left ?_
      intro k hk
      have hkc : ¬ (c = k) := by
        intro e
        exact hc (e ▸ (mem_firstOccur k _).1 hk)
      rw [List.filter_append]
      simp [hkc]
    · have hfilter : p.filter (fun q => decide (q.1 = c)) = [] := by
        rw [List.filter_eq_nil_iff]
        intro q hq hqc
        exact hc (List.mem_map.2 ⟨q, hq, by simpa using hqc⟩)
      simp [List.filter_append, hfilter]

lemma producedFor_cons_same (r : RoundKey) (t : String) (cl : Clue)
    (l : List (RoundKey × String × Clue)) :
    producedFor r ((r, t, cl) :: l) = (t, cl) :: producedFor r l := by
  simp [producedFor]

lemma producedFor_cons_other (r r' : RoundKey) (t : String) (cl : Clue)
    (l : List (RoundKey × String × Clue)) (h : r' ≠ r) :
    producedFor r ((r', t, cl) :: l) = producedFor r l := by
  simp [producedFor, h]

/-- The run, started from any state whose rounds group earlier emission
streams, grows each round by exactly the emissions `produced` replays for
it. -/
lemma runFrom_rounds (cfg : Config) (c : Container) :
    ∀ (l : List (Nat × Slide)) (cur : Option RoundKey)
      (p1 p2 : List (String × Clue)) (fin : Option FinalClue),
      (runFrom cfg c ⟨cur, groupFirst p1, groupFirst p2, fin⟩ l).round1
          = groupFirst (p1 ++ producedFor RoundKey.round1 (produced cfg c cur l))
      ∧ (runFrom cfg c ⟨cur, groupFirst p1, groupFirst p2, fin⟩ l).round2
          = groupFirst (p2 ++ producedFor RoundKey.round2 (produced cfg c cur l)) := by
  intro l
  induction l with
  | nil =>
    intro cur p1 p2 fin
    simp [runFrom, produced, producedFor]
  | cons hd tl ih =>
    intro cur p1 p2 fin
    rw [runFrom, List.foldl_cons]
    have hrun : ∀ st', List.foldl (step cfg c) st' tl = runFrom cfg c st' tl :=
      fun _ => rfl
    rw [hrun]
    by_cases h1 : pyUpper (slideTitleTrim hd.2) = r1_key cfg
    · have hstep : step cfg c ⟨cur, groupFirst p1, groupFirst p2, fin⟩ hd
          = ⟨some RoundKey.round1, groupFirst p1, groupFirst p2, fin⟩ := by
        unfold step; rw [if_pos h1]
      have hprod : produced cfg c cur (hd :: tl)
          = produced cfg c (some RoundKey.round1) tl := by
        simp only [produced]; rw [if_pos h1]
      rw [hstep, hprod]
      exact ih (some RoundKey.round1) p1 p2 fin
    · by_cases h2 : pyUpper (slideTitleTrim hd.2) = r2_key cfg
      · have hstep : step cfg c ⟨cur, groupFirst p1, groupFirst p2, fin⟩ hd
            = ⟨some RoundKey.round2, groupFirst p1, groupFirst p2, fin⟩ := by
          unfold step; rw [if_neg h1, if_pos h2]
        have hprod : produced cfg c cur (hd :: tl)
            = produced cfg c (some RoundKey.round2) tl := by
          simp only [produced]; rw [if_neg h1, if_pos h2]
        rw [hstep, hprod]
        exact ih (some RoundKey.round2) p1 p2 fin
      · by_cases h3 : pyUpper (slideTitleTrim hd.2) = f_key cfg
        · have hstep : step cfg c ⟨cur, groupFirst p1, groupFirst p2, fin⟩ hd
              = ⟨none, groupFirst p1, groupFirst p2,
                  some (buildFinal cfg c hd.1 hd.2)⟩ := by
            unfold step; rw [if_neg h1, if_neg h2, if_pos h3]
          have hprod : produced cfg c cur (hd :: tl)
              = produced cfg c none tl := by
            simp only [produced]; rw [if_neg h1, if_neg h2, if_pos h3]
          rw [hstep, hprod]
          exact ih none p1 p2 (some (buildFinal cfg c hd.1 hd.2))
        · match cur with
          | none =>
            have hstep : step cfg c ⟨none, groupFirst p1, groupFirst p2, fin⟩ hd
                = ⟨none, groupFirst p1, groupFirst p2, fin⟩ := by
              unfold step; rw [if_neg h1, if_neg h2, if_neg h3]
            have hprod : produced cfg c none (hd :: tl)
                = produced cfg c none tl := by
              simp only [produced]; rw [if_neg h1, if_neg h2, if_neg h3]
            rw [hstep, hprod]
            exact ih none p1 p2 fin
          | some r =>
            by_cases hdrop : slideTitleTrim hd.2 = "" ∨ get_body_text hd.2 = ""
                ∨ get_notes_text hd.2 = ""
            · have hstep : step cfg c ⟨some r, groupFirst p1, groupFirst p2, fin⟩ hd
                  = ⟨some r, groupFirst p1, groupFirst p2, fin⟩ := by
                unfold step
                rw [if_neg h1, if_neg h2, if_neg h3]
                simp only []
                rw [if_pos hdrop]
              have hprod : produced cfg c (some r) (hd :: tl)
                  = produced cfg c (some r) tl := by
                simp only [produced]
                rw [if_neg h1, if_neg h2, if_neg h3]
                rw [if_pos hdrop]
              rw [hstep, hprod]
              exact ih (some r) p1 p2 fin
            · have hstep : step cfg c ⟨some r, groupFirst p1, groupFirst p2, fin⟩ hd
                  = stepRound ⟨some r, groupFirst p1, groupFirst p2, fin⟩ r
                      (slideTitleTrim hd.2) (buildClue cfg c hd.1 hd.2) := by
                unfold step
                rw [if_neg h1, if_neg h2, if_neg h3]
                simp only []
                rw [if_neg hdrop]
              have hprod : produced cfg c (some r) (hd :: tl)
                  = (r, slideTitleTrim hd.2, buildClue cfg c hd.1 hd.2)
                      :: produced cfg c (some r) tl := by
                simp only [produced]
                rw [if_neg h1, if_neg h2, if_neg h3]
                rw [if_neg hdrop]
              rw [hstep, hprod]
              match r with
              | RoundKey.round1 =>
                have hsr : stepRound ⟨some RoundKey.round1, groupFirst p1,
                      groupFirst p2, fin⟩ RoundKey.round1
                      (slideTitleTrim hd.2) (buildClue cfg c hd.1 hd.2)
                    = ⟨some RoundKey.round1,
                        groupFirst (p1 ++ [(slideTitleTrim hd.2,
                          buildClue cfg c hd.1 hd.2)]), groupFirst p2, fin⟩ := by
                  rw [stepRound]
                  simp only []
                  rw [addClue_groupFirst]
                rw [hsr, producedFor_cons_same,
                  producedFor_cons_other RoundKey.round2 RoundKey.round1 _ _ _
                    (by decide)]
                have := ih (some RoundKey.round1)
                  (p1 ++ [(slideTitleTrim hd.2, buildClue cfg c hd.1 hd.2)]) p2 fin
                rw [this.1, this.2]
                constructor
                · rw [List.append_assoc, List.singleton_append]
                · rfl
              | RoundKey.round2 =>
                have hsr : stepRound ⟨some RoundKey.round2, groupFirst p1,
                      groupFirst p2, fin⟩ RoundKey.round2
                      (slideTitleTrim hd.2) (buildClue cfg c hd.1 hd.2)
                    = ⟨some RoundKey.round2, groupFirst p1,
                        groupFirst (p2 ++ [(slideTitleTrim hd.2,
                          buildClue cfg c hd.1 hd.2)]), fin⟩ := by
                  rw [stepRound]
                  simp only []
                  rw [addClue_groupFirst]
                rw [hsr, producedFor_cons_same,
                  producedFor_cons_other RoundKey.round1 RoundKey.round2 _ _ _
                    (by decide)]
                have := ih (some RoundKey.round2) p1
                  (p2 ++ [(slideTitleTrim hd.2, buildClue cfg c hd.1 hd.2)]) fin
                rw [this.1, this.2]
                constructor
                · rfl
                · rw [List.append_assoc, List.singleton_append]

/-- C3: each output round is exactly the first-encounter grouping of the
clue stream the run emits into it — its categories are the distinct
content-slide titles in order of first encounter (`firstOccur`, so two
content slides with the same title share one category and the key list
has no duplicates), and each category's clue list collects that
category's emissions in slide-encounter order. -/
theorem round_categories_first_encounter_grouping (cfg : Config)
    (c : Container) (slides : List Slide) :
    (runDeck cfg c slides).round1
        = groupFirst (producedFor RoundKey.round1
            (produced cfg c none (List.enumFrom 1 slides)))
    ∧ (runDeck cfg c slides).round2
        = groupFirst (producedFor RoundKey.round2
            (produced cfg c none (List.enumFrom 1 slides)))
    ∧ ((runDeck cfg c slides).round1.map Prod.fst).Nodup
    ∧ ((runDeck cfg c slides).round2.map Prod.fst).Nodup := by
  have h := runFrom_rounds cfg c (List.enumFrom 1 slides) none [] [] none
  have hinit : (⟨none, groupFirst [], groupFirst [], none⟩ : FoldState)
      = initState := rfl
  rw [hinit] at h
  have h1 : (runDeck cfg c slides).round1
      = groupFirst (producedFor RoundKey.round1
          (produced cfg c none (List.enumFrom 1 slides))) := by
    rw [runDeck, h.1]
    rfl
  have h2 : (runDeck cfg c slides).round2
      = groupFirst (producedFor RoundKey.round2
          (produced cfg c none (List.enumFrom 1 slides))) := by
    rw [runDeck, h.2]
    rfl
  refine ⟨h1, h2, ?_, ?_⟩
  · rw [h1, groupFirst_keys]
    exact firstOccur_nodup _
  · rw [h2, groupFirst_keys]
    exact firstOccur_nodup _

/-- The fold step's effect on the final record alone: overwritten on a
final-marker slide, untouched otherwise. -/
lemma step_final_update (cfg : Config) (c : Container) (st : FoldState)
    (hd : Nat × Slide) :
    (step cfg c st hd).final
      = if isFinalMarker cfg hd.2 = true
        then some (buildFinal cfg c hd.1 hd.2) else st.final := by
  by_cases h1 : pyUpper (slideTitleTrim hd.2) = r1_key cfg
  · have hm : isFinalMarker cfg hd.2 = false := by
      simp [isFinalMarker, slideUpper, h1]
    unfold step
    rw [if_pos h1, hm]
    rfl
  · by_cases h2 : pyUpper (slideTitleTrim hd.2) = r2_key cfg
    · have hm : isFinalMarker cfg hd.2 = false := by
        simp [isFinalMarker, slideUpper, h2]
      unfold step
      rw [if_neg h1, if_pos h2, hm]
      rfl
    · by_cases h3 : pyUpper (slideTitleTrim hd.2) = f_key cfg
      · have hm : isFinalMarker cfg hd.2 = true := by
          simp only [isFinalMarker, slideUpper, Bool.and_eq_true,
            decide_eq_true_eq]
          exact ⟨⟨h1, h2⟩, h3⟩
        unfold step
        rw [if_neg h1, if_neg h2, if_pos h3, hm]
        rfl
      · have hm : isFinalMarker cfg hd.2 = false := by
          simp [isFinalMarker, slideUpper, h3]
        unfold step
        rw [if_neg h1, if_neg h2, if_neg h3, hm, if_neg (by simp)]
        rcases hcur : st.current_round with _ | r
        · rfl
        · show (if slideTitleTrim hd.2 = "" ∨ get_body_text hd.2 = ""
                ∨ get_notes_text hd.2 = "" then st
              else stepRound st r (slideTitleTrim hd.2)
                (buildClue cfg c hd.1 hd.2)).final = st.final
          by_cases hdrop : slideTitleTrim hd.2 = "" ∨ get_body_text hd.2 = ""
              ∨ get_notes_text hd.2 = ""
          · rw [if_pos hdrop]
          · rw [if_neg hdrop, stepRound_final]

/-- The final record after a run is the last write of the fold. -/
lemma runFrom_final_foldl (cfg : Config) (c : Container) :
    ∀ (l : List (Nat × Slide)) (st : FoldState),
      (runFrom cfg c st l).final
        = l.foldl (fun f p => if isFinalMarker cfg p.2 = true
            then some (buildFinal cfg c p.1 p.2) else f) st.final := by
  intro l
  induction l with
  | nil => intro st; rfl
  | cons hd tl ih =>
    intro st
    rw [runFrom, List.foldl_cons, List.foldl_cons]
    have : List.foldl (step cfg c) (step cfg c st hd) tl
        = runFrom cfg c (step cfg c st hd) tl := rfl
    rw [this, ih, step_final_update]

lemma getLast?_cons_eq {α : Type} (a : α) (t : List α) :
    (a :: t).getLast?
      = match t.getLast? with
        | some b => some b
        | none => some a := by
  cases t with
  | nil => rfl
  | cons b t' =>
    rw [List.getLast?_cons_cons]
    rcases h : (b :: t').getLast? with _ | x
    · exact absurd (List.getLast?_eq_none_iff.1 h) (List.cons_ne_nil b t')
    · rfl

/-- A left fold that overwrites on every hit keeps the last hit. -/
lemma foldl_lastWrite {α β : Type} (g : α → Bool) (bld : α → β) :
    ∀ (l : List α) (init : Option β),
      l.foldl (fun f p => if g p = true then some (bld p) else f) init
        = lastWriteOut bld (l.filter g).getLast? init := by
  intro l
  induction l with
  | nil => intro init; rfl
  | cons a t ih =>
    intro init
    rw [List.foldl_cons]
    by_cases hg : g a = true
    · rw [if_pos hg, ih, List.filter_cons_of_pos hg, getLast?_cons_eq]
      rcases (t.filter g).getLast? with _ | x <;> rfl
    · rw [if_neg hg, ih, List.filter_cons_of_neg hg]

/-- The run's final record comes from the last final-marker slide. -/
lemma runDeck_final_char (cfg : Config) (c : Container) (slides : List Slide) :
    (runDeck cfg c slides).final
      = lastWriteOut (fun p : Nat × Slide => buildFinal cfg c p.1 p.2)
          ((List.enumFrom 1 slides).filter
            (fun p => isFinalMarker cfg p.2)).getLast? none := by
  have hi : initState.final = (none : Option FinalClue) := rfl
  rw [runDeck, runFrom_final_foldl, hi]
  exact foldl_lastWrite (fun p : Nat × Slide => isFinalMarker cfg p.2)
    (fun p : Nat × Slide => buildFinal cfg c p.1 p.2)
    (List.enumFrom 1 slides) none

/-- C4: the output's final record equals the one built from the
last-encountered final-marker slide (last-write-wins; `none` when no
final marker occurs), its category field is the configured final marker
text verbatim, and the step on a final-marker slide stores the record
and resets the current section to `none` — so following content slides
fall under the C8 skip rule until a round marker occurs. -/
theorem final_last_write_wins (cfg : Config) (c : Container)
    (slides : List Slide) (st : FoldState) (idx : Nat) (slide : Slide) :
    ((runDeck cfg c slides).final
      = lastWriteOut (fun p : Nat × Slide => buildFinal cfg c p.1 p.2)
          ((List.enumFrom 1 slides).filter
            (fun p => isFinalMarker cfg p.2)).getLast? none)
    ∧ (buildFinal cfg c idx slide).category = cfg.final_title
    ∧ (isFinalMarker cfg slide = true →
        step cfg c st (idx, slide)
          = { st with
                final := some (buildFinal cfg c idx slide)
                current_round := none }) := by
  refine ⟨runDeck_final_char cfg c slides, rfl, ?_⟩
  intro h
  simp only [isFinalMarker, Bool.and_eq_true, decide_eq_true_eq] at h
  obtain ⟨⟨hn1, hn2⟩, h3⟩ := h
  simp only [slideUpper] at hn1 hn2 h3
  unfold step
  rw [if_neg hn1, if_neg hn2, if_pos h3]

/-- C4 witness: the synthetic final slide overwrites the final record and
resets the section. -/
theorem final_last_write_wins_witness :
    step defaultConfig emptyContainer initState
        (4, mkSlide 4 "FINAL JEOPARDY" "Capital of France" "Paris")
      = { initState with
            final := some (buildFinal defaultConfig emptyContainer 4
              (mkSlide 4 "FINAL JEOPARDY" "Capital of France" "Paris"))
            current_round := none } :=
  (final_last_write_wins defaultConfig emptyContainer [] initState 4
    (mkSlide 4 "FINAL JEOPARDY" "Capital of France" "Paris")).2.2 (by decide)

/-- C10: the empty-field drop policy does not apply to final-marker
slides — the step stores a final record unconditionally, whose question
and answer are the extracted body and notes (hence empty strings when
those are empty) — and the output's final field is non-null exactly when
at least one final-marker slide was encountered. -/
theorem final_built_regardless_of_content (cfg : Config) (c : Container)
    (slides : List Slide) (st : FoldState) (idx : Nat) (slide : Slide) :
    (isFinalMarker cfg slide = true →
        (step cfg c st (idx, slide)).final
          = some (buildFinal cfg c idx slide))
    ∧ (buildFinal cfg c idx slide).question = get_body_text slide
    ∧ (buildFinal cfg c idx slide).answer = get_notes_text slide
    ∧ ((runDeck cfg c slides).final ≠ none ↔
        ∃ p ∈ List.enumFrom 1 slides, isFinalMarker cfg p.2 = true) := by
  refine ⟨?_, rfl, rfl, ?_⟩
  · intro h
    rw [step_final_update]
    simp only []
    rw [if_pos h]
  · rw [runDeck_final_char]
    rcases h : ((List.enumFrom 1 slides).filter
        (fun p => isFinalMarker cfg p.2)).getLast? with _ | x
    · have hval : lastWriteOut
          (fun p : Nat × Slide => buildFinal cfg c p.1 p.2)
          (none : Option (Nat × Slide)) none = none := rfl
      rw [h, hval]
      have hnil := List.getLast?_eq_none_iff.1 h
      rw [List.filter_eq_nil_iff] at hnil
      constructor
      · intro hne
        exact absurd rfl hne
      · rintro ⟨p, hp, hm⟩
        exact absurd hm (by simpa using hnil p hp)
    · have hval : lastWriteOut
          (fun p : Nat × Slide => buildFinal cfg c p.1 p.2)
          (some x) none = some (buildFinal cfg c x.1 x.2) := rfl
      rw [h, hval]
      have hx : x ∈ ((List.enumFrom 1 slides).filter
          (fun p => isFinalMarker cfg p.2)) := by
        have hmem : x ∈ ((List.enumFrom 1 slides).filter
            (fun p => isFinalMarker cfg p.2)).getLast? := by
          rw [h]; rfl
        obtain ⟨hne, hxe⟩ := List.mem_getLast?_eq_getLast hmem
        rw [hxe]
        exact List.getLast_mem hne
      rw [List.mem_filter] at hx
      constructor
      · intro _
        exact ⟨x, hx.1, hx.2⟩
      · intro _
        simp

/-- C10 witness: a final-marker slide with empty body and notes still
stores a final record. -/
theorem final_built_regardless_of_content_witness :
    (step defaultConfig emptyContainer initState
        (1, mkSlide 1 "FINAL JEOPARDY" "" "")).final
      = some (buildFinal defaultConfig emptyContainer 1
          (mkSlide 1 "FINAL JEOPARDY" "" "")) :=
  (final_built_regardless_of_content defaultConfig emptyContainer [] initState 1
    (mkSlide 1 "FINAL JEOPARDY" "" "")).1 (by decide)

lemma isPre_append (p t : List Char) : isPre p (p ++ t) = true := by
  induction p with
  | nil => rfl
  | cons a pa ih => simp [isPre, ih]

/-- Every normalized target is rooted under `"ppt/"` (in particular it
has no leading slash). -/
lemma normalizeTarget_ppt (target : String) :
    isPre "ppt/".toList (normalizeTarget target).toList = true := by
  unfold normalizeTarget
  set n3 := String.mk ((pyReplace (pyReplace target "\\" "/") ".." "").toList.dropWhile
    (fun ch => ch = '/')) with hn3
  by_cases h : isPre "ppt/".toList n3.toList = true
  · rw [if_pos h]
    exact h
  · rw [if_neg h]
    have hdata : ("ppt/" ++ n3).toList = "ppt/".toList ++ n3.toList := by
      cases n3
      rfl
    rw [hdata]
    exact isPre_append _ _

lemma relAudioTarget_eq_some (rel : RelEntry) (t : String) :
    relAudioTarget rel = some t ↔
      (pyEndsWith (pyLower rel.tag) "relationship" = true ∧
       hasSubstr "media/".toList rel.target.toList = true ∧
       t = normalizeTarget rel.target ∧
       extOf (pyLower t) ∈ AUDIO_EXTS) := by
  unfold relAudioTarget
  cases h1 : pyEndsWith (pyLower rel.tag) "relationship" with
  | false =>
    rw [if_pos rfl]
    simp
  | true =>
    rw [if_neg (by simp)]
    cases h2 : hasSubstr "media/".toList rel.target.toList with
    | false =>
      rw [if_pos rfl]
      simp
    | true =>
      rw [if_neg (by simp)]
      by_cases h3 : extOf (pyLower (normalizeTarget rel.target)) ∈ AUDIO_EXTS
      · rw [if_pos h3]
        constructor
        · intro h
          have ht : t = normalizeTarget rel.target := (Option.some_inj.1 h).symm
          exact ⟨rfl, rfl, ht, ht ▸ h3⟩
        · rintro ⟨-, -, ht, -⟩
          rw [ht]
      · rw [if_neg h3]
        constructor
        · intro h
          exact absurd h (by simp)
        · rintro ⟨-, -, ht, hext⟩
          exact absurd (ht ▸ hext) h3

/-- C5: a path is collected by the audio resolver for a slide exactly
when the slide's manifest is present and holds a relationship entry whose
target contains the media-folder marker, normalizes (backslashes to
slashes, `..` segments deleted, leading slashes stripped, rooted under
`"ppt/"`) to that path, and whose extension lies in the case-insensitive
audio allowlist; every collected path is rooted under `"ppt/"`. -/
theorem audio_target_resolution (c : Container) (idx : Nat) (t : String) :
    (t ∈ slide_audio_targets c idx ↔
      (rels_path_for_slide idx ∈ c.namelist ∧
       ∃ rel ∈ c.manifest (rels_path_for_slide idx),
         pyEndsWith (pyLower rel.tag) "relationship" = true ∧
         hasSubstr "media/".toList rel.target.toList = true ∧
         t = normalizeTarget rel.target ∧
         extOf (pyLower t) ∈ AUDIO_EXTS))
    ∧ (t ∈ slide_audio_targets c idx → isPre "ppt/".toList t.toList = true) := by
  have hchar : t ∈ slide_audio_targets c idx ↔
      (rels_path_for_slide idx ∈ c.namelist ∧
       ∃ rel ∈ c.manifest (rels_path_for_slide idx),
         pyEndsWith (pyLower rel.tag) "relationship" = true ∧
         hasSubstr "media/".toList rel.target.toList = true ∧
         t = normalizeTarget rel.target ∧
         extOf (pyLower t) ∈ AUDIO_EXTS) := by
    unfold slide_audio_targets
    by_cases hin : rels_path_for_slide idx ∈ c.namelist
    · rw [if_pos hin, List.mem_filterMap]
      constructor
      · rintro ⟨rel, hrel, hsome⟩
        exact ⟨hin, rel, hrel, (relAudioTarget_eq_some rel t).1 hsome⟩
      · rintro ⟨-, rel, hrel, hprops⟩
        exact ⟨rel, hrel, (relAudioTarget_eq_some rel t).2 hprops⟩
    · rw [if_neg hin]
      simp [hin]
  refine ⟨hchar, ?_⟩
  intro ht
  obtain ⟨-, rel, -, -, -, hnorm, -⟩ := hchar.1 ht
  rw [hnorm]
  exact normalizeTarget_ppt rel.target

/-- A container holding one slide-1 manifest with a single audio
relationship, and the referenced media part itself. -/
def audioContainer : Container :=
  { namelist := ["ppt/slides/_rels/slide1.xml.rels", "ppt/media/media1.mp3"]
    manifest := fun _ => [{ tag := "Relationship", target := "../media/media1.mp3" }] }

/-- C5 witness: the normalized target of a `../media/media1.mp3`
relationship is collected and is rooted under `"ppt/"`. -/
theorem audio_target_resolution_witness :
    isPre "ppt/".toList ("ppt/media/media1.mp3").toList = true :=
  (audio_target_resolution audioContainer 1 "ppt/media/media1.mp3").2 (by decide)

lemma extractImagesAux_ne_nil (idx : Nat) (shapes : List Shape) :
    ∀ n : Nat, (extractImagesAux idx shapes n ≠ [] ↔
      ∃ sh ∈ shapes, sh.shape_type = some 13 ∧ sh.image.isSome = true) := by
  induction shapes with
  | nil => intro n; simp [extractImagesAux]
  | cons sh rest ih =>
    intro n
    by_cases h : sh.shape_type = some 13 ∧ sh.image.isSome
    · rw [extractImagesAux, if_pos h]
      simp only [ne_eq, List.cons_ne_nil, not_false_eq_true, true_iff]
      exact ⟨sh, List.mem_cons_self sh rest, h.1, h.2⟩
    · rw [extractImagesAux, if_neg h]
      rw [ih n]
      constructor
      · rintro ⟨s, hs, hprop⟩
        exact ⟨s, List.mem_cons_of_mem sh hs, hprop⟩
      · rintro ⟨s, hs, hprop⟩
        rcases List.mem_cons.1 hs with heq | hmem
        · exact absurd ⟨(heq ▸ hprop.1), (heq ▸ hprop.2)⟩ h
        · exact ⟨s, hmem, hprop⟩

lemma extract_audio_ne_nil (c : Container) (idx : Nat) :
    extract_audio_from_slide c idx ≠ [] ↔
      ∃ t ∈ slide_audio_targets c idx, t ∈ c.namelist := by
  unfold extract_audio_from_slide
  by_cases hempty : (slide_audio_targets c idx).isEmpty = true
  · rw [if_pos hempty]
    have : slide_audio_targets c idx = [] := List.isEmpty_iff.1 hempty
    simp [this]
  · rw [if_neg hempty]
    rw [ne_eq, List.filterMap_eq_nil_iff]
    constructor
    · intro h
      push_neg at h
      obtain ⟨t, ht, hne⟩ := h
      refine ⟨t, ht, ?_⟩
      by_cases hmem : t ∈ c.namelist
      · exact hmem
      · exact absurd (by rw [if_neg hmem]) hne
    · rintro ⟨t, ht, hmem⟩ hall
      have := hall t ht
      rw [if_pos hmem] at this
      exact Option.some_ne_none _ this

lemma mediaOpt_ne_none (xs : List String) (f : String → MediaRef) :
    ((if xs.isEmpty then none else some (xs.map f)) ≠ none ↔ xs ≠ []) := by
  by_cases h : xs.isEmpty = true
  · rw [if_pos h]
    simp [List.isEmpty_iff.1 h]
  · rw [if_neg h]
    have hne : xs ≠ [] := fun hnil => h (by rw [hnil]; rfl)
    simp [hne]

lemma mediaOpt_some_ne_nil (xs : List String) (f : String → MediaRef)
    (l : List MediaRef)
    (hl : (if xs.isEmpty then none else some (xs.map f)) = some l) :
    l ≠ [] := by
  by_cases h : xs.isEmpty = true
  · rw [if_pos h] at hl
    exact absurd hl (by simp)
  · rw [if_neg h] at hl
    have hl' : l = xs.map f := (Option.some_inj.1 hl).symm
    rw [hl']
    intro hnil
    rw [List.map_eq_nil_iff] at hnil
    exact h (by rw [hnil]; rfl)

lemma extract_images_ne_nil (shapes : List Shape) (idx : Nat) :
    extract_images_from_slide shapes idx ≠ [] ↔
      ∃ sh ∈ shapes, sh.shape_type = some 13 ∧ sh.image.isSome = true :=
  extractImagesAux_ne_nil idx shapes 0

/-- C6: for both record builders of the pipeline — the clue dict of a
content slide and the final dict of a final-marker slide — the `images`
key is present exactly when the slide has a picture shape (shape type 13
with an image), the `audio` key exactly when the resolver yields a
target that exists in the container, neither key ever holds an empty
list, and an absent per-slide relationship manifest gives the empty
audio list rather than an error (the embedding is total). -/
theorem media_keys_iff_nonempty (cfg : Config) (c : Container) (idx : Nat)
    (slide : Slide) :
    ((buildClue cfg c idx slide).images ≠ none ↔
      ∃ sh ∈ slide.shapes, sh.shape_type = some 13 ∧ sh.image.isSome = true)
    ∧ (∀ l, (buildClue cfg c idx slide).images = some l → l ≠ [])
    ∧ ((buildClue cfg c idx slide).audio ≠ none ↔
      ∃ t ∈ slide_audio_targets c idx, t ∈ c.namelist)
    ∧ (∀ l, (buildClue cfg c idx slide).audio = some l → l ≠ [])
    ∧ ((buildFinal cfg c idx slide).images ≠ none ↔
      ∃ sh ∈ slide.shapes, sh.shape_type = some 13 ∧ sh.image.isSome = true)
    ∧ (∀ l, (buildFinal cfg c idx slide).images = some l → l ≠ [])
    ∧ ((buildFinal cfg c idx slide).audio ≠ none ↔
      ∃ t ∈ slide_audio_targets c idx, t ∈ c.namelist)
    ∧ (∀ l, (buildFinal cfg c idx slide).audio = some l → l ≠ [])
    ∧ (rels_path_for_slide idx ∉ c.namelist →
      extract_audio_from_slide c idx = []) := by
  refine ⟨?_, ?_, ?_, ?_, ?_, ?_, ?_, ?_, ?_⟩
  · show (if (extract_images_from_slide slide.shapes idx).isEmpty then none
        else some ((extract_images_from_slide slide.shapes idx).map
          (fun n => ({ src := cfg.assets ++ "/images/" ++ n } : MediaRef))))
        ≠ none ↔ _
    rw [mediaOpt_ne_none]
    exact extract_images_ne_nil slide.shapes idx
  · intro l hl
    exact mediaOpt_some_ne_nil (extract_images_from_slide slide.shapes idx)
      (fun n => ({ src := cfg.assets ++ "/images/" ++ n } : MediaRef)) l hl
  · show (if (extract_audio_from_slide c idx).isEmpty then none
        else some ((extract_audio_from_slide c idx).map
          (fun n => ({ src := cfg.assets ++ "/audio/" ++ n } : MediaRef))))
        ≠ none ↔ _
    rw [mediaOpt_ne_none]
    exact extract_audio_ne_nil c idx
  · intro l hl
    exact mediaOpt_some_ne_nil (extract_audio_from_slide c idx)
      (fun n => ({ src := cfg.assets ++ "/audio/" ++ n } : MediaRef)) l hl
  · show (if (extract_images_from_slide slide.shapes idx).isEmpty then none
        else some ((extract_images_from_slide slide.shapes idx).map
          (fun n => ({ src := cfg.assets ++ "/images/" ++ n } : MediaRef))))
        ≠ none ↔ _
    rw [mediaOpt_ne_none]
    exact extract_images_ne_nil slide.shapes idx
  · intro l hl
    exact mediaOpt_some_ne_nil (extract_images_from_slide slide.shapes idx)
      (fun n => ({ src := cfg.assets ++ "/images/" ++ n } : MediaRef)) l hl
  · show (if (extract_audio_from_slide c idx).isEmpty then none
        else some ((extract_audio_from_slide c idx).map
          (fun n => ({ src := cfg.assets ++ "/audio/" ++ n } : MediaRef))))
        ≠ none ↔ _
    rw [mediaOpt_ne_none]
    exact extract_audio_ne_nil c idx
  · intro l hl
    exact mediaOpt_some_ne_nil (extract_audio_from_slide c idx)
      (fun n => ({ src := cfg.assets ++ "/audio/" ++ n } : MediaRef)) l hl
  · intro hnot
    unfold extract_audio_from_slide
    have htargets : slide_audio_targets c idx = [] := by
      unfold slide_audio_targets
      rw [if_neg hnot]
    rw [htargets]
    rfl

/-- C6 witness: with no parts in the container (no slide-1 manifest), the
audio list is empty. -/
theorem media_keys_iff_nonempty_witness :
    extract_audio_from_slide emptyContainer 1 = [] :=
  (media_keys_iff_nonempty defaultConfig emptyContainer 1
    faultSlide).2.2.2.2.2.2.2.2 (by decide)
